import Mathlib

/- Verification development for the Nori scene exporter (ext/plugin/io_nori.py).

   The exporter walks a Blender scene graph and emits an XML scene document plus
   one OBJ mesh file per mesh (or per mesh and material slot).  This file gives a
   shallow embedding of the exporter:

   * numeric values that the Python code holds in floats are modelled as exact
     rationals; a serialized number is kept as the rational itself (string
     formatting of a single number is a host detail outside the model);
   * the XML DOM is modelled by the inductive `XML`; an attribute value is an
     `AVal` recording whether the source formats a plain string, one number, a
     comma separated list of numbers, or a space separated 3-vector;
   * an OBJ file is modelled as its list of lines (`ObjLine`);
   * Python exceptions (the string raise in `write_face`, the out-of-range
     index `polygons[0]` on an empty mesh) are modelled with `Except`;
   * the Blender scene list is modelled as a forest of typed nodes in
     first-child / next-sibling form (`Forest`), so that every traversal of the
     embedding is structurally recursive. -/

/-! ## Vectors and matrices -/

structure Vec3 where
  x : ℚ
  y : ℚ
  z : ℚ
deriving DecidableEq

instance : Sub Vec3 := ⟨fun a b => ⟨a.x - b.x, a.y - b.y, a.z - b.z⟩⟩

@[simp] theorem Vec3.sub_x (a b : Vec3) : (a - b).x = a.x - b.x := rfl

@[simp] theorem Vec3.sub_y (a b : Vec3) : (a - b).y = a.y - b.y := rfl

@[simp] theorem Vec3.sub_z (a b : Vec3) : (a - b).z = a.z - b.z := rfl

/-- Cross product, as computed by mathutils `Vector.cross`. -/
def cross (a b : Vec3) : Vec3 :=
  ⟨a.y * b.z - a.z * b.y, a.z * b.x - a.x * b.z, a.x * b.y - a.y * b.x⟩

/-- Dot product, as computed by mathutils `Vector.dot`. -/
def dot (a b : Vec3) : ℚ := a.x * b.x + a.y * b.y + a.z * b.z

/-- A 4x4 matrix (`mathutils.Matrix`), row index first. -/
abbrev Mat4 := Fin 4 → Fin 4 → ℚ

/-- The 16 entries of a matrix in row-major order, as produced by the loop
    `for j in range(4): for i in range(4): value += str(mat[j][i])+","` of
    `__createTransform` (the loop is unrolled here). -/
def rowMajor (m : Mat4) : List ℚ :=
  [m 0 0, m 0 1, m 0 2, m 0 3,
   m 1 0, m 1 1, m 1 2, m 1 3,
   m 2 0, m 2 1, m 2 2, m 2 3,
   m 3 0, m 3 1, m 3 2, m 3 3]

def matMul (a b : Mat4) : Mat4 :=
  fun j i => a j 0 * b 0 i + a j 1 * b 1 i + a j 2 * b 2 i + a j 3 * b 3 i

def idMat4 : Mat4 := fun j i => if j = i then 1 else 0

/-! ## XML document model -/

/-- An attribute value.  The Python code always stores strings; we keep the
    numeric payloads exact and record the formatting shape used by the source:
    `str(x)` for one number (`num`), comma joined numbers (`nums`), and the
    `"%f %f %f"` vector format (`vec3`). -/
inductive AVal where
  | str (s : String)
  | num (q : ℚ)
  | nums (l : List ℚ)
  | vec3 (v : Vec3)
deriving DecidableEq

/-- A DOM element: tag name, attributes, children (`Document.createElement`
    plus `setAttribute` and ordered `appendChild`). -/
inductive XML where
  | elem (name : String) (attrs : List (String × AVal)) (children : List XML)

def nameOf : XML → String
  | .elem n _ _ => n

def childrenOf : XML → List XML
  | .elem _ _ cs => cs

/-- DOM `appendChild`: the new child goes at the end. -/
def XML.appendChild : XML → XML → XML
  | .elem n a cs, c => .elem n a (cs ++ [c])

/-- The direct children of an element that carry a given tag name. -/
def childrenNamed (nm : String) (x : XML) : List XML :=
  (childrenOf x).filter (fun c => nameOf c == nm)

def countNamed (nm : String) (x : XML) : ℕ := (childrenNamed nm x).length

/-- Value of an attribute, when present and when it is a plain string. -/
def attrStr (x : XML) (key : String) : Option String :=
  match x with
  | .elem _ attrs _ =>
    match attrs.find? (fun kv => kv.1 == key) with
    | some kv =>
      match kv.2 with
      | .str s => some s
      | _ => none
    | none => none

/-- `__createEntry(t, name, value)`. -/
def createEntry (t nm : String) (value : AVal) : XML :=
  .elem t [("name", .str nm), ("value", value)] []

/-- `__createVector(t, vec)` (attribute `value` in `"%f %f %f"` format). -/
def createVector (t : String) (vec : Vec3) : XML :=
  .elem t [("value", .vec3 vec)] []

/-- `__createTransform(mat, el)`: a `transform` element named `toWorld`; the
    optional child element comes first, then a `matrix` element whose value is
    the 16 row-major entries of `mat`. -/
def createTransform (mat : Mat4) (el : Option XML) : XML :=
  .elem "transform" [("name", .str "toWorld")]
    ((match el with
      | some e => [e]
      | none => []) ++ [.elem "matrix" [("value", .nums (rowMajor mat))] []])

/-! ## Host scene data -/

structure Vertex where
  co : Vec3
  normal : Vec3
deriving DecidableEq

/-- A polygon of the evaluated mesh: its vertex indices, material slot index,
    smooth flag and host-supplied face normal. -/
structure Polygon where
  vertices : List ℕ
  material_index : ℕ
  use_smooth : Bool
  normal : Vec3
deriving DecidableEq

/-- The evaluated mesh data (`mesh.to_mesh(...)`): vertex array, the active UV
    layer when one exists, and the polygon list. -/
structure MeshData where
  vertices : List Vertex
  uv_active : Option (List (ℚ × ℚ))
  polygons : List Polygon
deriving DecidableEq

/-- A material slot: its name, the `raytrace_mirror.use` flag and the diffuse
    color of its material. -/
structure MaterialSlot where
  name : String
  use_mirror : Bool
  diffuse_color : Vec3
deriving DecidableEq

/-- A mesh object of the scene: name, world transform, material slots and the
    evaluated mesh data. -/
structure MeshObject where
  name : String
  matrix_world : Mat4
  material_slots : List MaterialSlot
  data : MeshData

/-- Camera data: `cam.data.angle` (radians), clip distances, world transform. -/
structure CameraData where
  angle : ℚ
  clip_start : ℚ
  clip_end : ℚ
  matrix_world : Mat4

/-- The render settings of `context.scene.render`. -/
structure RenderCtx where
  resolution_x : ℕ
  resolution_y : ℕ
  resolution_percentage : ℕ

/-! ## OBJ file model -/

/-- One line of an OBJ file.  A face line holds, per vertex, the written
    1-based position index together with the optional UV index and the optional
    normal index (present exactly when the corresponding channel is written). -/
inductive ObjLine where
  | v (x y z : ℚ)
  | vt (u w : ℚ)
  | vn (x y z : ℚ)
  | f (entries : List (ℕ × Option ℕ × Option ℕ))
deriving DecidableEq

def isFLine : ObjLine → Bool
  | .f _ => true
  | _ => false

def isVNLine : ObjLine → Bool
  | .vn _ _ _ => true
  | _ => false

def isVTLine : ObjLine → Bool
  | .vt _ _ => true
  | _ => false

/-- The face entries of a face line (empty for any other line). -/
def fEntriesOf : ObjLine → List (ℕ × Option ℕ × Option ℕ)
  | .f es => es
  | _ => []

/-! ## write_face -/

/-- Coordinate of vertex `i` (`prevMesh.vertices[i].co`; the host guarantees
    indices in range, out-of-range lookups default to the origin). -/
def vco (m : MeshData) (i : ℕ) : Vec3 :=
  (m.vertices.getD i ⟨⟨0, 0, 0⟩, ⟨0, 0, 0⟩⟩).co

/-- The order check of `write_face`: when normals are not exported, compute
    `ac = co[v2] - co[v0]`, `ab = co[v1] - co[v0]`, `norm = ab.cross(ac)` and
    reverse the triple when `norm.dot(poly.normal) < 0`.  The source normalizes
    `norm` first; normalization scales by a positive factor (and keeps the zero
    vector), so the sign test is embedded on the unnormalized cross product. -/
def orderCheck (m : MeshData) (poly : Polygon) (exportNormal : Bool)
    (vert : ℕ × ℕ × ℕ) : ℕ × ℕ × ℕ :=
  if !exportNormal then
    let ac := vco m vert.2.2 - vco m vert.1
    let ab := vco m vert.2.1 - vco m vert.1
    let norm := cross ab ac
    if dot norm poly.normal < 0 then (vert.2.2, vert.2.1, vert.1) else vert
  else vert

/-- Triangulation of one polygon: a quad splits into the fixed fan
    `[(v0,v1,v2), (v2,v3,v0)]`, a triangle stays, anything else raises
    (`raise "Exception: Difficult poly, abord"`). -/
def vertFacesOf : List ℕ → Except String (List (ℕ × ℕ × ℕ))
  | [a, b, c, d] => .ok [(a, b, c), (c, d, a)]
  | [a, b, c] => .ok [(a, b, c)]
  | _ => .error "Exception: Difficult poly, abord"

/-- The triangles of a polygon when triangulation succeeds (and `[]` when the
    source would raise); used to state results about `write_face`. -/
def trisOf (p : Polygon) : List (ℕ × ℕ × ℕ) :=
  match vertFacesOf p.vertices with
  | .ok l => l
  | .error _ => []

/-- One written face line: order check, then per vertex the 1-based index,
    a UV index exactly when `exportUV`, a normal index exactly when
    `exportNormal`. -/
def faceLineOf (m : MeshData) (poly : Polygon) (exportUV exportNormal : Bool)
    (vert : ℕ × ℕ × ℕ) : ObjLine :=
  let vert := orderCheck m poly exportNormal vert
  .f ([vert.1, vert.2.1, vert.2.2].map (fun idVert =>
        (idVert + 1,
         if exportUV then some (idVert + 1) else none,
         if exportNormal then some (idVert + 1) else none)))

/-- The polygon loop of `write_face`.  A polygon is written only when
    `idMat != -1 and poly.material_index == idMat` (note: with the default
    `idMat = -1` this guard is false for every polygon). -/
def write_face_go (m : MeshData) (exportUV exportNormal : Bool) (idMat : ℤ) :
    List Polygon → Except String (List ObjLine)
  | [] => .ok []
  | poly :: rest =>
    if idMat ≠ -1 ∧ (poly.material_index : ℤ) = idMat then
      match vertFacesOf poly.vertices with
      | .error e => .error e
      | .ok vertFaces =>
        match write_face_go m exportUV exportNormal idMat rest with
        | .error e => .error e
        | .ok restLines =>
          .ok (vertFaces.map (faceLineOf m poly exportUV exportNormal) ++ restLines)
    else write_face_go m exportUV exportNormal idMat rest

/-- `write_face(prevMesh, fileObj, exportUV, exportNormal, idMat)`, returning
    the face lines it appends to the file. -/
def write_face (m : MeshData) (exportUV exportNormal : Bool) (idMat : ℤ) :
    Except String (List ObjLine) :=
  write_face_go m exportUV exportNormal idMat m.polygons

/-- The face lines belonging to material slot `i`: the polygons whose material
    index is `i`, each contributing its triangles in order. -/
def facesOfMat (m : MeshData) (exportUV exportNormal : Bool) (i : ℕ) : List ObjLine :=
  (m.polygons.filter (fun p => p.material_index == i)).flatMap
    (fun p => (trisOf p).map (faceLineOf m p exportUV exportNormal))

/-! ## write_mesh_objs -/

/-- The non-face part of the OBJ file, written before any branching on
    materials: all `v` lines, then the `vt` lines when UVs are exported, then
    the `vn` lines when normals are exported. -/
def headerOf (m : MeshData) (exportUV exportNormal : Bool) : List ObjLine :=
  (m.vertices.map (fun vert => ObjLine.v vert.co.x vert.co.y vert.co.z))
    ++ (if exportUV then
          (m.uv_active.getD []).map (fun u => ObjLine.vt u.1 u.2)
        else [])
    ++ (if exportNormal then
          m.vertices.map (fun vert => ObjLine.vn vert.normal.x vert.normal.y vert.normal.z)
        else [])

/-- `__createMeshEntry(filename, matrix)`. -/
def createMeshEntry (filename : String) (matrix : Mat4) : XML :=
  .elem "mesh" [("type", .str "obj")]
    [.elem "string" [("name", .str "filename"), ("value", .str ("meshes/" ++ filename))] [],
     createTransform matrix none]

/-- `__createBSDFEntry(slot)`. -/
def createBSDFEntry (slot : MaterialSlot) : XML :=
  if slot.use_mirror then .elem "bsdf" [("type", .str "mirror")] []
  else
    (XML.elem "bsdf" [("type", .str "diffuse")] []).appendChild
      (createEntry "color" "albedo"
        (.nums [slot.diffuse_color.x, slot.diffuse_color.y, slot.diffuse_color.z]))

/-- The default BSDF attached when a mesh has no material
    (`value "0.75,0.75,0.75"`, a literal string in the source). -/
def defaultDiffuseBsdf : XML :=
  (XML.elem "bsdf" [("type", .str "diffuse")] []).appendChild
    (createEntry "color" "albedo" (.str "0.75,0.75,0.75"))

/-- The result of exporting one mesh object: the OBJ files left on disk (path
    and content), the produced scene-document mesh elements, and the verbose
    log lines. -/
structure MeshOut where
  files : List (String × List ObjLine)
  entries : List XML
  logs : List String

/-- The material loop of `write_mesh_objs` (`for id_mat in range(len(slots))`,
    here running over the slot list with the running index).  Each slot file
    starts from a copy of the base file - which at this point holds exactly the
    header - and appends the slot faces; the base file itself is removed at the
    end and therefore not part of the result. -/
def slotLoop (mesh : MeshObject) (header : List ObjLine)
    (exportUV exportNormal : Bool) (idMat : ℕ) :
    List MaterialSlot → Except String MeshOut
  | [] => .ok ⟨[], [], []⟩
  | slot :: rest =>
    match write_face mesh.data exportUV exportNormal (idMat : ℤ) with
    | .error e => .error e
    | .ok faces =>
      match slotLoop mesh header exportUV exportNormal (idMat + 1) rest with
      | .error e => .error e
      | .ok r =>
        .ok ⟨(mesh.name ++ "_" ++ slot.name ++ ".obj", header ++ faces) :: r.files,
             ((createMeshEntry (mesh.name ++ "_" ++ slot.name ++ ".obj") mesh.matrix_world).appendChild
               (createBSDFEntry slot)) :: r.entries,
             ("MESH: " ++ mesh.name ++ " BSDF: " ++ slot.name) :: r.logs⟩

/-- `write_mesh_objs(mesh)`: reads `polygons[0].use_smooth` (an exception on an
    empty mesh), decides the UV and normal channels and the
    `haveMaterial = len(slots) != 0 and slots[0].name != ''` flag, writes the
    header, and then either writes a single file with the default BSDF or one
    file per material slot. -/
def write_mesh_objs (mesh : MeshObject) : Except String MeshOut :=
  match mesh.data.polygons with
  | [] => .error "IndexError: polygons is empty"
  | p0 :: _ =>
    let exportNormal := p0.use_smooth
    let exportUV := exportNormal && mesh.data.uv_active.isSome
    let haveMaterial :=
      !mesh.material_slots.isEmpty
        && ((mesh.material_slots.headD ⟨"", false, ⟨0, 0, 0⟩⟩).name != "")
    let fileObjPath := mesh.name ++ ".obj"
    let header := headerOf mesh.data exportUV exportNormal
    if !haveMaterial then
      match write_face mesh.data exportUV exportNormal (-1) with
      | .error e => .error e
      | .ok faces =>
        .ok ⟨[(fileObjPath, header ++ faces)],
             [(createMeshEntry fileObjPath mesh.matrix_world).appendChild defaultDiffuseBsdf],
             []⟩
    else slotLoop mesh header exportUV exportNormal 0 mesh.material_slots

/-! ## The scene graph and the main write -/

/-- Camera export `write_camera(cam)`: fov converted from radians to degrees
    with `math.pi` (embedded as the exact value of that IEEE double), clip
    planes, scaled resolution, and the `toWorld` transform holding a
    `scale (1,1,-1)` child followed by the world matrix. -/
def mathPi : ℚ := 884279719003555 / 281474976710656

def write_camera (ctx : RenderCtx) (cam : CameraData) : XML :=
  .elem "camera" [("type", .str "perspective")]
    [createEntry "float" "fov" (.num (cam.angle * 180 / mathPi)),
     createEntry "float" "nearClip" (.num cam.clip_start),
     createEntry "float" "farClip" (.num cam.clip_end),
     createEntry "integer" "width"
       (.num ((⌊(ctx.resolution_x : ℚ) * ((ctx.resolution_percentage : ℚ) / 100)⌋ : ℤ) : ℚ)),
     createEntry "integer" "height"
       (.num ((⌊(ctx.resolution_y : ℚ) * ((ctx.resolution_percentage : ℚ) / 100)⌋ : ℤ) : ℚ)),
     createTransform cam.matrix_world (some (createVector "scale" ⟨1, 1, -1⟩))]

/-- The type tag and payload of one scene object. -/
inductive ObjKind where
  | camera (cam : CameraData)
  | lamp (lampType : String) (location : Vec3)
  | mesh (m : MeshObject)
  | empty

/-- The scene objects as a forest in first-child / next-sibling form: `nil` is
    the empty sibling list and `cons k children rest` is an object of kind `k`
    whose children form `children`, followed by its siblings `rest`.  The
    top-level forest holds the parentless objects. -/
inductive Forest where
  | nil : Forest
  | cons (kind : ObjKind) (children : Forest) (rest : Forest) : Forest

/-- `obj.type in {'MESH', 'EMPTY'}`. -/
def isMeshOrEmptyK : ObjKind → Bool
  | .mesh _ => true
  | .empty => true
  | _ => false

/-- The mesh entries contributed by a node itself (`if mesh.type == 'MESH'`). -/
def ownMeshes : ObjKind → List MeshObject
  | .mesh m => [m]
  | _ => []

/-- The mesh objects in the order `write_mesh` exports them: for each object of
    type mesh or empty, first the meshes of its children, then the object
    itself when it is a mesh. -/
def collectList : Forest → List MeshObject
  | .nil => []
  | .cons k cs rest =>
    (if isMeshOrEmptyK k then collectList cs ++ ownMeshes k else []) ++ collectList rest

/-- The meshes exported for one node of the forest. -/
def collectMeshes (k : ObjKind) (cs : Forest) : List MeshObject :=
  collectList cs ++ ownMeshes k

/-- All object kinds of the scene (`context.scene.objects`), every object of
    the forest in order. -/
def allKinds : Forest → List ObjKind
  | .nil => []
  | .cons k cs rest => k :: (allKinds cs ++ allKinds rest)

def camOf : ObjKind → Option CameraData
  | .camera cd => some cd
  | _ => none

def lampOf : ObjKind → Option (String × Vec3)
  | .lamp t pos => some (t, pos)
  | _ => none

/-- Step 3 of `write`: filter the camera objects; none yields a warning and no
    element, more than one yields a warning and only the first is exported. -/
def cameraSection (ctx : RenderCtx) (objs : List ObjKind) : List String × List XML :=
  match objs.filterMap camOf with
  | [] => (["WARN: No camera to export"], [])
  | cd :: rest =>
    ((if rest.isEmpty then []
      else ["WARN: Does not handle multiple camera, only export the first one"]),
     [write_camera ctx cd])

/-- Step 4 of `write`: point lamps become `emitter` elements, any other lamp
    subtype only produces a warning. -/
def lampLoop : List (String × Vec3) → List String × List XML
  | [] => ([], [])
  | (t, pos) :: rest =>
    let r := lampLoop rest
    if t = "POINT" then
      (r.1,
       (XML.elem "emitter" [("type", .str "point")]
         [createEntry "point" "position" (.nums [pos.x, pos.y, pos.z])]) :: r.2)
    else (("WARN: Light source type (" ++ t ++ ") is not supported") :: r.1, r.2)

def emitterSection (objs : List ObjKind) : List String × List XML :=
  lampLoop (objs.filterMap lampOf)

/-- Step 5 of `write`: export every collected mesh in order, concatenating the
    files, scene elements and logs. -/
def meshLoop : List MeshObject → Except String MeshOut
  | [] => .ok ⟨[], [], []⟩
  | m :: rest =>
    match write_mesh_objs m with
    | .error e => .error e
    | .ok mo1 =>
      match meshLoop rest with
      | .error e => .error e
      | .ok mo2 => .ok ⟨mo1.files ++ mo2.files, mo1.entries ++ mo2.entries, mo1.logs ++ mo2.logs⟩

/-- The result of `write`: the scene document, the printed warnings and logs,
    and the mesh files written under `meshes/`. -/
structure WriteOut where
  doc : XML
  warnings : List String
  files : List (String × List ObjLine)

/-- `NoriWritter.write(exportLight, nbSamples)`: integrator, sampler, at most
    one camera, the point lights when `exportLight`, then all meshes of the
    parentless mesh or empty objects. -/
def write (ctx : RenderCtx) (roots : Forest) (exportLight : Bool) (nbSamples : ℕ) :
    Except String WriteOut :=
  let integrator :=
    if !exportLight then XML.elem "integrator" [("type", .str "av")] []
    else XML.elem "integrator" [("type", .str "path_mis")] []
  let sampler :=
    XML.elem "sampler" [("type", .str "independent")]
      [XML.elem "integer" [("name", .str "sampleCount"), ("value", .num (nbSamples : ℚ))] []]
  let cams := cameraSection ctx (allKinds roots)
  let lamps := if exportLight then emitterSection (allKinds roots) else ([], [])
  match meshLoop (collectList roots) with
  | .error e => .error e
  | .ok mo =>
    .ok ⟨XML.elem "scene" [] ([integrator, sampler] ++ cams.2 ++ lamps.2 ++ mo.entries),
         cams.1 ++ lamps.1 ++ mo.logs,
         mo.files⟩

/-! ## Extraction helpers -/

def mFiles (e : Except String MeshOut) : List (String × List ObjLine) :=
  match e with
  | .ok mo => mo.files
  | .error _ => []

def mEntries (e : Except String MeshOut) : List XML :=
  match e with
  | .ok mo => mo.entries
  | .error _ => []

def getOkW (e : Except String WriteOut) : WriteOut :=
  match e with
  | .ok o => o
  | .error _ => ⟨.elem "" [] [], [], []⟩

/-- The filename strings of the mesh elements of a document, in order. -/
def meshFilenames (x : XML) : List String :=
  (childrenNamed "mesh" x).flatMap
    (fun e => (childrenNamed "string" e).filterMap (fun c => attrStr c "value"))

/-- Modelled from the claim wording for C5: an axis flip negating the X and Z
    axes, applied to the camera world transform before row-major
    serialization.  This is the spec side of the comparison; the source side is
    `write_camera` above. -/
def flipXZ : Mat4 := fun j i => if j = i then (if j = 0 ∨ j = 2 then -1 else 1) else 0

def claimedCameraMatrixValue (world : Mat4) : List ℚ := rowMajor (matMul world flipXZ)

def getOkM (e : Except String MeshOut) : MeshOut :=
  match e with
  | .ok mo => mo
  | .error _ => ⟨[], [], []⟩

/-! ## Concrete scenes used to evaluate the embedding -/

/-- A vertex at the given position with normal `(0,0,1)`. -/
def vtx (x y z : ℚ) : Vertex := ⟨⟨x, y, z⟩, ⟨0, 0, 1⟩⟩

/-- Two flat (non smooth) triangles over three vertices. -/
def mdTri : MeshData :=
  ⟨[vtx 0 0 0, vtx 1 0 0, vtx 0 1 0], none,
   [⟨[0, 1, 2], 0, false, ⟨0, 0, 1⟩⟩, ⟨[0, 2, 1], 0, false, ⟨0, 0, -1⟩⟩]⟩

/-- Two smooth triangles with an active UV layer, one per material index. -/
def mdSm : MeshData :=
  ⟨[vtx 0 0 0, vtx 1 0 0, vtx 0 1 0], some [(0, 0), (1, 0), (0, 1)],
   [⟨[0, 1, 2], 0, true, ⟨0, 0, 1⟩⟩, ⟨[0, 1, 2], 1, true, ⟨0, 0, 1⟩⟩]⟩

/-- A mesh without material slots. -/
def meshC1 : MeshObject := ⟨"M", idMat4, [], mdTri⟩

/-- A mesh whose first material slot has an empty name. -/
def meshC4x : MeshObject :=
  ⟨"M", idMat4, [⟨"", false, ⟨1, 1, 1⟩⟩, ⟨"B", false, ⟨1, 1, 1⟩⟩], mdTri⟩

/-- A mesh with two named material slots over the smooth two-material data. -/
def meshW4 : MeshObject :=
  ⟨"W", idMat4, [⟨"A", false, ⟨1, 0, 0⟩⟩, ⟨"B", true, ⟨0, 0, 0⟩⟩], mdSm⟩

/-- A pentagon (5 vertex indices in one face), without material slots. -/
def meshC6 : MeshObject :=
  ⟨"P", idMat4, [],
   ⟨[vtx 0 0 0, vtx 1 0 0, vtx 1 1 0, vtx 0 1 0, vtx 0 0 1], none,
    [⟨[0, 1, 2, 3, 4], 0, false, ⟨0, 0, 1⟩⟩]⟩⟩

/-- The same pentagon mesh with one named material slot. -/
def meshC6b : MeshObject :=
  ⟨"P", idMat4, [⟨"A", false, ⟨1, 1, 1⟩⟩],
   ⟨[vtx 0 0 0, vtx 1 0 0, vtx 1 1 0, vtx 0 1 0, vtx 0 0 1], none,
    [⟨[0, 1, 2, 3, 4], 0, false, ⟨0, 0, 1⟩⟩]⟩⟩

/-- A mesh without material slots, used as a single scene entry. -/
def meshW9 : MeshObject := ⟨"W9", idMat4, [], mdTri⟩

def ctx0 : RenderCtx := ⟨100, 100, 100⟩

def cam0 : CameraData := ⟨1, 1 / 10, 100, idMat4⟩

/-- A scene with one empty (group) object and nothing else. -/
def sceneC7w : Forest := .cons .empty .nil .nil

/-- A scene with one parent mesh `P` whose only child is the mesh `C`. -/
def sceneC8x : Forest :=
  .cons (.mesh ⟨"P", idMat4, [], mdTri⟩)
    (.cons (.mesh ⟨"C", idMat4, [], mdTri⟩) .nil .nil) .nil

/-- The vertices used by the winding-correction witness. -/
def mC2 : MeshData := ⟨[vtx 0 0 0, vtx 1 0 0, vtx 0 1 0], none, []⟩

/-- A polygon whose host normal points opposite to the computed normal. -/
def pC2 : Polygon := ⟨[0, 1, 2], 0, false, ⟨0, 0, -1⟩⟩

/-! ## Lemmas about the geometry of the order check -/

theorem dot_cross_rev (a b c n : Vec3) :
    dot (cross (b - c) (a - c)) n = -(dot (cross (b - a) (c - a)) n) := by
  simp only [dot, cross, Vec3.sub_x, Vec3.sub_y, Vec3.sub_z]
  ring

/-! ## Lemmas about write_face -/

theorem vertFacesOf_eq_ok (p : Polygon)
    (h : p.vertices.length = 3 ∨ p.vertices.length = 4) :
    vertFacesOf p.vertices = .ok (trisOf p) := by
  rcases hl : p.vertices with _ | ⟨a, _ | ⟨b, _ | ⟨c, _ | ⟨d, rest⟩⟩⟩⟩ <;>
    simp_all [vertFacesOf, trisOf]

theorem write_face_neg_one_go (m : MeshData) (eU eN : Bool) :
    ∀ polys, write_face_go m eU eN (-1) polys = .ok [] := by
  intro polys
  induction polys with
  | nil => rfl
  | cons p rest ih => simp [write_face_go, ih]

/-- With the default `idMat = -1` the guard of `write_face` rejects every
    polygon, so no face line is ever written. -/
theorem write_face_neg_one (m : MeshData) (eU eN : Bool) :
    write_face m eU eN (-1) = .ok [] :=
  write_face_neg_one_go m eU eN m.polygons

theorem write_face_go_eq (m : MeshData) (eU eN : Bool) (i : ℕ) :
    ∀ polys, (∀ p ∈ polys, p.material_index = i →
        (p.vertices.length = 3 ∨ p.vertices.length = 4)) →
      write_face_go m eU eN (i : ℤ) polys
        = .ok ((polys.filter (fun p => p.material_index == i)).flatMap
            (fun p => (trisOf p).map (faceLineOf m p eU eN))) := by
  intro polys h
  induction polys with
  | nil => rfl
  | cons p rest ih =>
    have hrest := ih (fun q hq => h q (List.mem_cons_of_mem _ hq))
    by_cases hmat : p.material_index = i
    · have h34 := h p (List.mem_cons_self p rest) hmat
      have hcond : (i : ℤ) ≠ -1 ∧ (p.material_index : ℤ) = (i : ℤ) := by
        constructor
        · omega
        · exact_mod_cast congrArg (Nat.cast : ℕ → ℤ) hmat
      rw [write_face_go, if_pos hcond, vertFacesOf_eq_ok p h34, hrest]
      simp [hmat]
    · have hcond : ¬((i : ℤ) ≠ -1 ∧ (p.material_index : ℤ) = (i : ℤ)) := by
        rintro ⟨-, h2⟩
        exact hmat (by exact_mod_cast h2)
      rw [write_face_go, if_neg hcond, hrest]
      simp [hmat]

theorem write_face_eq (m : MeshData) (eU eN : Bool) (i : ℕ)
    (h : ∀ p ∈ m.polygons, p.material_index = i →
        (p.vertices.length = 3 ∨ p.vertices.length = 4)) :
    write_face m eU eN (i : ℤ) = .ok (facesOfMat m eU eN i) :=
  write_face_go_eq m eU eN i m.polygons h

theorem faceLineOf_isF (m : MeshData) (p : Polygon) (eU eN : Bool) (t : ℕ × ℕ × ℕ) :
    isFLine (faceLineOf m p eU eN t) = true := rfl

theorem faceLineOf_not_vn (m : MeshData) (p : Polygon) (eU eN : Bool) (t : ℕ × ℕ × ℕ) :
    isVNLine (faceLineOf m p eU eN t) = false := rfl

theorem faceLineOf_not_vt (m : MeshData) (p : Polygon) (eU eN : Bool) (t : ℕ × ℕ × ℕ) :
    isVTLine (faceLineOf m p eU eN t) = false := rfl

theorem faceLineOf_entries (m : MeshData) (p : Polygon) (eU eN : Bool) (t : ℕ × ℕ × ℕ) :
    ∀ en ∈ fEntriesOf (faceLineOf m p eU eN t),
      en.2.1.isSome = eU ∧ en.2.2.isSome = eN := by
  intro en hen
  simp only [faceLineOf, fEntriesOf, List.mem_map] at hen
  obtain ⟨i, -, rfl⟩ := hen
  cases eU <;> cases eN <;> simp

theorem write_face_go_mem (m : MeshData) (eU eN : Bool) (idMat : ℤ) :
    ∀ polys ls, write_face_go m eU eN idMat polys = .ok ls →
      ∀ l ∈ ls, ∃ p t, l = faceLineOf m p eU eN t := by
  intro polys
  induction polys with
  | nil =>
    intro ls h l hl
    simp only [write_face_go, Except.ok.injEq] at h
    subst h
    simp at hl
  | cons p rest ih =>
    intro ls h l hl
    rw [write_face_go] at h
    split at h
    · rcases hvf : vertFacesOf p.vertices with e | vf <;> rw [hvf] at h
      · exact absurd h (by simp)
      · rcases hrest : write_face_go m eU eN idMat rest with e | restLines <;>
          rw [hrest] at h
        · exact absurd h (by simp)
        · simp only [Except.ok.injEq] at h
          subst h
          rcases List.mem_append.1 hl with hl1 | hl2
          · obtain ⟨t, -, rfl⟩ := List.mem_map.1 hl1
            exact ⟨p, t, rfl⟩
          · exact ih restLines hrest l hl2
    · exact ih ls h l hl

/-! ## Lemmas about the OBJ header -/

theorem filter_map_none {α : Type} (f : α → ObjLine) (p : ObjLine → Bool)
    (hf : ∀ a, p (f a) = false) (l : List α) : (l.map f).filter p = [] := by
  induction l with
  | nil => rfl
  | cons a rest ih => simp [hf a, ih]

theorem filter_map_all {α : Type} (f : α → ObjLine) (p : ObjLine → Bool)
    (hf : ∀ a, p (f a) = true) (l : List α) : (l.map f).filter p = l.map f := by
  induction l with
  | nil => rfl
  | cons a rest ih => simp [hf a, ih]

theorem headerOf_filter_isF (m : MeshData) (eU eN : Bool) :
    (headerOf m eU eN).filter isFLine = [] := by
  unfold headerOf
  cases eU <;> cases eN <;>
    simp [List.filter_append,
      filter_map_none (fun vert => ObjLine.v vert.co.x vert.co.y vert.co.z) isFLine
        (fun a => rfl) m.vertices,
      filter_map_none (fun u : ℚ × ℚ => ObjLine.vt u.1 u.2) isFLine
        (fun a => rfl) (m.uv_active.getD []),
      filter_map_none (fun vert => ObjLine.vn vert.normal.x vert.normal.y vert.normal.z)
        isFLine (fun a => rfl) m.vertices]

theorem headerOf_filter_isVN (m : MeshData) (eU eN : Bool) :
    (headerOf m eU eN).filter isVNLine
      = if eN then
          m.vertices.map (fun vert => ObjLine.vn vert.normal.x vert.normal.y vert.normal.z)
        else [] := by
  unfold headerOf
  cases eU <;> cases eN <;>
    simp [List.filter_append,
      filter_map_none (fun vert => ObjLine.v vert.co.x vert.co.y vert.co.z) isVNLine
        (fun a => rfl) m.vertices,
      filter_map_none (fun u : ℚ × ℚ => ObjLine.vt u.1 u.2) isVNLine
        (fun a => rfl) (m.uv_active.getD []),
      filter_map_all (fun vert => ObjLine.vn vert.normal.x vert.normal.y vert.normal.z)
        isVNLine (fun a => rfl) m.vertices]

theorem headerOf_filter_isVT (m : MeshData) (eU eN : Bool) :
    (headerOf m eU eN).filter isVTLine
      = if eU then (m.uv_active.getD []).map (fun u => ObjLine.vt u.1 u.2)
        else [] := by
  unfold headerOf
  cases eU <;> cases eN <;>
    simp [List.filter_append,
      filter_map_none (fun vert => ObjLine.v vert.co.x vert.co.y vert.co.z) isVTLine
        (fun a => rfl) m.vertices,
      filter_map_all (fun u : ℚ × ℚ => ObjLine.vt u.1 u.2) isVTLine
        (fun a => rfl) (m.uv_active.getD []),
      filter_map_none (fun vert => ObjLine.vn vert.normal.x vert.normal.y vert.normal.z)
        isVTLine (fun a => rfl) m.vertices]

/-! ## Lemmas about slotLoop and write_mesh_objs -/

theorem slotLoop_ok (mesh : MeshObject) (header : List ObjLine) (eU eN : Bool)
    (h34 : ∀ p ∈ mesh.data.polygons, p.vertices.length = 3 ∨ p.vertices.length = 4) :
    ∀ slots : List MaterialSlot, ∀ idMat : ℕ, ∃ mo,
      slotLoop mesh header eU eN idMat slots = .ok mo
      ∧ mo.files.length = slots.length
      ∧ mo.entries.length = slots.length
      ∧ ∀ i, i < slots.length →
          mo.files.getD i ("", [])
            = (mesh.name ++ "_" ++ (slots.getD i ⟨"", false, ⟨0, 0, 0⟩⟩).name ++ ".obj",
               header ++ facesOfMat mesh.data eU eN (idMat + i)) := by
  intro slots
  induction slots with
  | nil =>
    intro idMat
    exact ⟨⟨[], [], []⟩, rfl, rfl, rfl, fun i hi => absurd hi (by simp)⟩
  | cons s rest ih =>
    intro idMat
    obtain ⟨mo, hmo, hlen1, hlen2, hget⟩ := ih (idMat + 1)
    have hwf : write_face mesh.data eU eN (idMat : ℤ)
        = .ok (facesOfMat mesh.data eU eN idMat) :=
      write_face_eq mesh.data eU eN idMat (fun p hp _ => h34 p hp)
    refine ⟨⟨(mesh.name ++ "_" ++ s.name ++ ".obj",
              header ++ facesOfMat mesh.data eU eN idMat) :: mo.files,
             ((createMeshEntry (mesh.name ++ "_" ++ s.name ++ ".obj") mesh.matrix_world).appendChild
               (createBSDFEntry s)) :: mo.entries,
             ("MESH: " ++ mesh.name ++ " BSDF: " ++ s.name) :: mo.logs⟩, ?_, ?_, ?_, ?_⟩
    · rw [slotLoop, hwf, hmo]
    · simp [hlen1]
    · simp [hlen2]
    · intro i hi
      cases i with
      | zero => simp
      | succ n =>
        have h2 := hget n (by simpa using hi)
        have harith : idMat + 1 + n = idMat + (n + 1) := by omega
        rw [harith] at h2
        simpa [List.getD_cons_succ] using h2

theorem slotLoop_shape (mesh : MeshObject) (header : List ObjLine) (eU eN : Bool) :
    ∀ slots : List MaterialSlot, ∀ idMat : ℕ, ∀ mo : MeshOut,
      slotLoop mesh header eU eN idMat slots = .ok mo →
      (∀ e ∈ mo.entries, ∃ fn s,
          e = (createMeshEntry fn mesh.matrix_world).appendChild (createBSDFEntry s))
      ∧ (∀ f ∈ mo.files, ∃ (k : ℤ) (ls : List ObjLine),
          write_face mesh.data eU eN k = .ok ls ∧ f.2 = header ++ ls) := by
  intro slots
  induction slots with
  | nil =>
    intro idMat mo h
    simp only [slotLoop, Except.ok.injEq] at h
    subst h
    exact ⟨fun e he => absurd he (by simp), fun f hf => absurd hf (by simp)⟩
  | cons s rest ih =>
    intro idMat mo h
    rw [slotLoop] at h
    rcases hwf : write_face mesh.data eU eN (idMat : ℤ) with e | faces <;> rw [hwf] at h
    · exact absurd h (by simp)
    · rcases hrec : slotLoop mesh header eU eN (idMat + 1) rest with e | r <;> rw [hrec] at h
      · exact absurd h (by simp)
      · simp only [Except.ok.injEq] at h
        subst h
        obtain ⟨ihE, ihF⟩ := ih (idMat + 1) r hrec
        constructor
        · intro e he
          rcases List.mem_cons.1 he with rfl | he2
          · exact ⟨mesh.name ++ "_" ++ s.name ++ ".obj", s, rfl⟩
          · exact ihE e he2
        · intro f hf
          rcases List.mem_cons.1 hf with rfl | hf2
          · exact ⟨(idMat : ℤ), faces, hwf, rfl⟩
          · exact ihF f hf2

theorem wmo_no_material (mesh : MeshObject) (p0 : Polygon) (ps : List Polygon)
    (hp : mesh.data.polygons = p0 :: ps)
    (hnm : mesh.material_slots.isEmpty = true
        ∨ (mesh.material_slots.headD ⟨"", false, ⟨0, 0, 0⟩⟩).name = "") :
    write_mesh_objs mesh
      = .ok ⟨[(mesh.name ++ ".obj",
               headerOf mesh.data (p0.use_smooth && mesh.data.uv_active.isSome) p0.use_smooth)],
             [(createMeshEntry (mesh.name ++ ".obj") mesh.matrix_world).appendChild
               defaultDiffuseBsdf],
             []⟩ := by
  have hcond : (!mesh.material_slots.isEmpty
      && ((mesh.material_slots.headD ⟨"", false, ⟨0, 0, 0⟩⟩).name != "")) = false := by
    rcases hnm with h1 | h2
    · simp [h1]
    · rcases hsl : mesh.material_slots with _ | ⟨s, srest⟩
      · simp
      · rw [hsl] at h2
        simp only [List.headD_cons] at h2
        simp [h2]
  simp only [write_mesh_objs, hp, hcond, Bool.not_false, if_pos,
    write_face_neg_one, List.append_nil]

theorem wmo_material (mesh : MeshObject) (s : MaterialSlot) (srest : List MaterialSlot)
    (p0 : Polygon) (ps : List Polygon)
    (hslots : mesh.material_slots = s :: srest) (hname : s.name ≠ "")
    (hp : mesh.data.polygons = p0 :: ps) :
    write_mesh_objs mesh
      = slotLoop mesh
          (headerOf mesh.data (p0.use_smooth && mesh.data.uv_active.isSome) p0.use_smooth)
          (p0.use_smooth && mesh.data.uv_active.isSome) p0.use_smooth 0
          mesh.material_slots := by
  have hcond : (!mesh.material_slots.isEmpty
      && ((mesh.material_slots.headD ⟨"", false, ⟨0, 0, 0⟩⟩).name != "")) = true := by
    simp [hslots, bne_iff_ne, hname]
  simp only [write_mesh_objs, hp, hcond, Bool.not_true, if_neg, Bool.false_eq_true,
    not_false_eq_true]

theorem createBSDFEntry_name (s : MaterialSlot) : nameOf (createBSDFEntry s) = "bsdf" := by
  unfold createBSDFEntry
  split <;> rfl

theorem wmo_shape (mesh : MeshObject) (mo : MeshOut)
    (h : write_mesh_objs mesh = .ok mo) :
    (∀ e ∈ mo.entries, ∃ fn b, nameOf b = "bsdf"
        ∧ e = (createMeshEntry fn mesh.matrix_world).appendChild b)
    ∧ ∃ p0 ps, mesh.data.polygons = p0 :: ps
        ∧ ∀ f ∈ mo.files, ∃ (k : ℤ) (ls : List ObjLine),
            write_face mesh.data (p0.use_smooth && mesh.data.uv_active.isSome)
                p0.use_smooth k = .ok ls
            ∧ f.2 = headerOf mesh.data (p0.use_smooth && mesh.data.uv_active.isSome)
                p0.use_smooth ++ ls := by
  rcases hp : mesh.data.polygons with _ | ⟨p0, ps⟩
  · rw [write_mesh_objs, hp] at h
    exact absurd h (by simp)
  · by_cases hmat : (!mesh.material_slots.isEmpty
        && ((mesh.material_slots.headD ⟨"", false, ⟨0, 0, 0⟩⟩).name != "")) = true
    · rcases hsl : mesh.material_slots with _ | ⟨s, srest⟩
      · rw [hsl] at hmat
        simp at hmat
      · have hname : s.name ≠ "" := by
          rw [hsl] at hmat
          simpa [bne_iff_ne] using hmat
        rw [wmo_material mesh s srest p0 ps hsl hname hp] at h
        obtain ⟨hE, hF⟩ := slotLoop_shape mesh _ _ _ mesh.material_slots 0 mo h
        refine ⟨fun e he => ?_, p0, ps, rfl, hF⟩
        obtain ⟨fn, sl, rfl⟩ := hE e he
        exact ⟨fn, createBSDFEntry sl, createBSDFEntry_name sl, rfl⟩
    · have hnm : mesh.material_slots.isEmpty = true
          ∨ (mesh.material_slots.headD ⟨"", false, ⟨0, 0, 0⟩⟩).name = "" := by
        rw [Bool.and_eq_true] at hmat
        rcases not_and_or.mp hmat with h1 | h2
        · left
          simpa using h1
        · right
          exact not_ne_iff.mp (fun hne => h2 (bne_iff_ne.mpr hne))
      rw [wmo_no_material mesh p0 ps hp hnm] at h
      simp only [Except.ok.injEq] at h
      subst h
      constructor
      · intro e he
        rcases List.mem_singleton.1 he with rfl
        exact ⟨mesh.name ++ ".obj", defaultDiffuseBsdf, rfl, rfl⟩
      · refine ⟨p0, ps, rfl, fun f hf => ?_⟩
        rcases List.mem_singleton.1 hf with rfl
        exact ⟨-1, [], write_face_neg_one _ _ _, by simp⟩

/-! ## Lemmas about meshLoop and the document assembly -/

theorem wmo_entry_names (mesh : MeshObject) (mo : MeshOut)
    (h : write_mesh_objs mesh = .ok mo) : ∀ e ∈ mo.entries, nameOf e = "mesh" := by
  intro e he
  obtain ⟨hE, -⟩ := wmo_shape mesh mo h
  obtain ⟨fn, b, -, rfl⟩ := hE e he
  rfl

theorem meshLoop_entry_names : ∀ (ms : List MeshObject) (mo : MeshOut),
    meshLoop ms = .ok mo → ∀ e ∈ mo.entries, nameOf e = "mesh" := by
  intro ms
  induction ms with
  | nil =>
    intro mo h e he
    simp only [meshLoop, Except.ok.injEq] at h
    subst h
    simp at he
  | cons m rest ih =>
    intro mo h e he
    rw [meshLoop] at h
    rcases h1 : write_mesh_objs m with er | mo1 <;> rw [h1] at h
    · exact absurd h (by simp)
    · rcases h2 : meshLoop rest with er | mo2 <;> rw [h2] at h
      · exact absurd h (by simp)
      · simp only [Except.ok.injEq] at h
        subst h
        rcases List.mem_append.1 he with he1 | he2
        · exact wmo_entry_names m mo1 h1 e he1
        · exact ih mo2 h2 e he2

theorem meshLoop_append : ∀ (A B : List MeshObject) (mo : MeshOut),
    meshLoop (A ++ B) = .ok mo →
    ∃ a b, meshLoop A = .ok a ∧ meshLoop B = .ok b
      ∧ mo.files = a.files ++ b.files
      ∧ mo.entries = a.entries ++ b.entries
      ∧ mo.logs = a.logs ++ b.logs := by
  intro A
  induction A with
  | nil =>
    intro B mo h
    exact ⟨⟨[], [], []⟩, mo, rfl, h, by simp, by simp, by simp⟩
  | cons m rest ih =>
    intro B mo h
    rw [List.cons_append, meshLoop] at h
    rcases h1 : write_mesh_objs m with er | mo1 <;> rw [h1] at h
    · exact absurd h (by simp)
    · rcases h2 : meshLoop (rest ++ B) with er | mo2 <;> rw [h2] at h
      · exact absurd h (by simp)
      · simp only [Except.ok.injEq] at h
        subst h
        obtain ⟨a, b, ha, hb, hf, he, hl⟩ := ih B mo2 h2
        refine ⟨⟨mo1.files ++ a.files, mo1.entries ++ a.entries, mo1.logs ++ a.logs⟩, b,
          ?_, hb, ?_, ?_, ?_⟩
        · rw [meshLoop, h1, ha]
        · simp [hf]
        · simp [he]
        · simp [hl]

theorem lampLoop_names : ∀ l : List (String × Vec3),
    ∀ e ∈ (lampLoop l).2, nameOf e = "emitter" := by
  intro l
  induction l with
  | nil =>
    intro e he
    simp [lampLoop] at he
  | cons tp rest ih =>
    intro e he
    rcases tp with ⟨t, pos⟩
    by_cases ht : t = "POINT" <;> simp only [lampLoop, ht, if_pos, if_neg, not_false_eq_true,
      reduceIte] at he
    · rcases List.mem_cons.1 he with rfl | he2
      · rfl
      · exact ih e he2
    · exact ih e he

theorem cameraSection_names (ctx : RenderCtx) (objs : List ObjKind) :
    ∀ e ∈ (cameraSection ctx objs).2, nameOf e = "camera" := by
  intro e he
  unfold cameraSection at he
  rcases h : objs.filterMap camOf with _ | ⟨cd, rest⟩ <;> rw [h] at he
  · simp at he
  · rcases List.mem_singleton.1 he with rfl
    rfl

theorem cameraSection_nil (ctx : RenderCtx) (objs : List ObjKind)
    (h : objs.filterMap camOf = []) :
    cameraSection ctx objs = (["WARN: No camera to export"], []) := by
  unfold cameraSection
  rw [h]

theorem cameraSection_cons (ctx : RenderCtx) (objs : List ObjKind)
    (cd : CameraData) (rest : List CameraData)
    (h : objs.filterMap camOf = cd :: rest) :
    cameraSection ctx objs
      = ((if rest.isEmpty then []
          else ["WARN: Does not handle multiple camera, only export the first one"]),
         [write_camera ctx cd]) := by
  unfold cameraSection
  rw [h]

theorem filter_names_nil (nm : String) : ∀ l : List XML,
    (∀ e ∈ l, nameOf e ≠ nm) → l.filter (fun c => nameOf c == nm) = [] := by
  intro l
  induction l with
  | nil => intro h; rfl
  | cons e rest ih =>
    intro h
    rw [List.filter_cons_of_neg]
    · exact ih (fun x hx => h x (List.mem_cons_of_mem _ hx))
    · simp [h e (List.mem_cons_self e rest)]

theorem filter_names_self (nm : String) : ∀ l : List XML,
    (∀ e ∈ l, nameOf e = nm) → l.filter (fun c => nameOf c == nm) = l := by
  intro l h
  exact List.filter_eq_self.mpr (fun a ha => by simp [h a ha])

theorem write_ok_parts (ctx : RenderCtx) (roots : Forest) (el : Bool) (nb : ℕ)
    (out : WriteOut) (h : write ctx roots el nb = .ok out) :
    ∃ mo, meshLoop (collectList roots) = .ok mo
      ∧ out.doc = XML.elem "scene" []
          ([(if !el then XML.elem "integrator" [("type", .str "av")] []
             else XML.elem "integrator" [("type", .str "path_mis")] []),
            XML.elem "sampler" [("type", .str "independent")]
              [XML.elem "integer" [("name", .str "sampleCount"), ("value", .num (nb : ℚ))] []]]
            ++ (cameraSection ctx (allKinds roots)).2
            ++ (if el then emitterSection (allKinds roots) else ([], [])).2
            ++ mo.entries)
      ∧ out.warnings = (cameraSection ctx (allKinds roots)).1
          ++ (if el then emitterSection (allKinds roots) else ([], [])).1
          ++ mo.logs
      ∧ out.files = mo.files := by
  simp only [write] at h
  rcases hml : meshLoop (collectList roots) with er | mo <;> rw [hml] at h
  · exact absurd h (by simp)
  · simp only [Except.ok.injEq] at h
    exact ⟨mo, rfl, by rw [← h], by rw [← h], by rw [← h]⟩

theorem headPair_filter (nm : String) (b : Bool) (nb : ℕ)
    (h1 : nm ≠ "integrator") (h2 : nm ≠ "sampler") :
    List.filter (fun c => nameOf c == nm)
      [(if !b then XML.elem "integrator" [("type", .str "av")] []
        else XML.elem "integrator" [("type", .str "path_mis")] []),
       XML.elem "sampler" [("type", .str "independent")]
         [XML.elem "integer" [("name", .str "sampleCount"), ("value", .num (nb : ℚ))] []]]
      = [] := by
  apply filter_names_nil
  intro e he
  rcases List.mem_cons.1 he with rfl | he2
  · cases b <;> simpa [nameOf] using fun hc => (by simp_all)
  · rcases List.mem_singleton.1 he2 with rfl
    simpa [nameOf] using h2.symm

theorem write_childrenNamed_camera (ctx : RenderCtx) (roots : Forest) (el : Bool)
    (nb : ℕ) (out : WriteOut) (h : write ctx roots el nb = .ok out) :
    childrenNamed "camera" out.doc = (cameraSection ctx (allKinds roots)).2 := by
  obtain ⟨mo, hml, hdoc, -, -⟩ := write_ok_parts ctx roots el nb out h
  rw [hdoc]
  have hlamps : ∀ e ∈ (if el then emitterSection (allKinds roots) else ([], [])).2,
      nameOf e = "emitter" := by
    cases el
    · intro e he
      simp at he
    · exact fun e he => lampLoop_names _ e he
  simp only [childrenNamed, childrenOf, List.filter_append]
  rw [headPair_filter "camera" el nb (by decide) (by decide),
    filter_names_self "camera" _ (cameraSection_names ctx (allKinds roots)),
    filter_names_nil "camera" _
      (fun e he => ne_of_eq_of_ne (hlamps e he) (by decide)),
    filter_names_nil "camera" _
      (fun e he => ne_of_eq_of_ne (meshLoop_entry_names (collectList roots) mo hml e he)
        (by decide))]
  simp

theorem write_childrenNamed_mesh (ctx : RenderCtx) (roots : Forest) (el : Bool)
    (nb : ℕ) (out : WriteOut) (h : write ctx roots el nb = .ok out) :
    ∃ mo, meshLoop (collectList roots) = .ok mo
      ∧ childrenNamed "mesh" out.doc = mo.entries
      ∧ out.files = mo.files := by
  obtain ⟨mo, hml, hdoc, -, hfiles⟩ := write_ok_parts ctx roots el nb out h
  refine ⟨mo, hml, ?_, hfiles⟩
  rw [hdoc]
  have hlamps : ∀ e ∈ (if el then emitterSection (allKinds roots) else ([], [])).2,
      nameOf e = "emitter" := by
    cases el
    · intro e he
      simp at he
    · exact fun e he => lampLoop_names _ e he
  simp only [childrenNamed, childrenOf, List.filter_append]
  rw [headPair_filter "mesh" el nb (by decide) (by decide),
    filter_names_nil "mesh" _
      (fun e he => ne_of_eq_of_ne (cameraSection_names ctx (allKinds roots) e he) (by decide)),
    filter_names_nil "mesh" _
      (fun e he => ne_of_eq_of_ne (hlamps e he) (by decide)),
    filter_names_self "mesh" _ (meshLoop_entry_names (collectList roots) mo hml)]
  simp

/-! ## Small generic helpers for the claim proofs -/

theorem filter_eq_nil_of {α : Type} (p : α → Bool) : ∀ l : List α,
    (∀ a ∈ l, p a = false) → l.filter p = [] := by
  intro l
  induction l with
  | nil => intro h; rfl
  | cons a rest ih =>
    intro h
    rw [List.filter_cons_of_neg]
    · exact ih (fun x hx => h x (List.mem_cons_of_mem _ hx))
    · simp [h a (List.mem_cons_self a rest)]

theorem facesOfMat_filter_isF (m : MeshData) (eU eN : Bool) (i : ℕ) :
    (facesOfMat m eU eN i).filter isFLine = facesOfMat m eU eN i := by
  apply List.filter_eq_self.mpr
  intro l hl
  unfold facesOfMat at hl
  obtain ⟨p, -, hl2⟩ := List.mem_flatMap.1 hl
  obtain ⟨t, -, rfl⟩ := List.mem_map.1 hl2
  rfl

theorem headerOf_fEntries (m : MeshData) (eU eN : Bool) :
    ∀ l ∈ headerOf m eU eN, fEntriesOf l = [] := by
  intro l hl
  unfold headerOf at hl
  rcases List.mem_append.1 hl with h1 | h2
  · rcases List.mem_append.1 h1 with h3 | h4
    · obtain ⟨a, -, rfl⟩ := List.mem_map.1 h3
      rfl
    · rcases hu : eU with _ | _ <;> rw [hu] at h4
      · simp at h4
      · obtain ⟨a, -, rfl⟩ := List.mem_map.1 h4
        rfl
  · rcases hn : eN with _ | _ <;> rw [hn] at h2
    · simp at h2
    · obtain ⟨a, -, rfl⟩ := List.mem_map.1 h2
      rfl

theorem getD0_mem {α : Type} (l : List α) (d : α) (h : 0 < l.length) : l.getD 0 d ∈ l := by
  cases l with
  | nil => simp at h
  | cons a rest => simp [List.getD]

/-! ## Claim theorems -/

/-- C1: the claim states that a mesh with zero material slots yields exactly one
    mesh file and one default-diffuse scene entry (albedo 0.75,0.75,0.75) whose
    file contains face records for all faces.  Evaluating the code at a mesh
    with zero slots and two well-formed triangles shows the single file and the
    default entry are produced, but the file holds only the three `v` lines and
    no face record at all: the guard `idMat != -1 and ...` of `write_face` is
    false for every polygon when `idMat` is the default `-1`. -/
theorem claim_C1_no_material_export_writes_no_faces :
    (write_mesh_objs meshC1).toOption.map (fun mo => (mo.files, mo.entries))
      = some ([("M.obj", [ObjLine.v 0 0 0, ObjLine.v 1 0 0, ObjLine.v 0 1 0])],
              [XML.elem "mesh" [("type", .str "obj")]
                [XML.elem "string"
                   [("name", .str "filename"), ("value", .str "meshes/M.obj")] [],
                 XML.elem "transform" [("name", .str "toWorld")]
                   [XML.elem "matrix" [("value", .nums (rowMajor idMat4))] []],
                 XML.elem "bsdf" [("type", .str "diffuse")]
                   [XML.elem "color"
                      [("name", .str "albedo"), ("value", .str "0.75,0.75,0.75")] []]]])
    ∧ meshC1.data.polygons.length = 2 :=
  ⟨rfl, rfl⟩

/-- C3: every face with exactly 4 vertex indices is triangulated into exactly 2
    triangles, drawn in order from the original 4-index list as `(0,1,2)` and
    `(2,3,0)`. -/
theorem claim_C3_quad_triangulation (a b c d : ℕ) :
    vertFacesOf [a, b, c, d] = .ok [(a, b, c), (c, d, a)]
    ∧ (vertFacesOf [a, b, c, d]).toOption.map List.length = some 2 :=
  ⟨rfl, rfl⟩

/-- C4 counterexample: a mesh with 2 material slots whose first slot has an
    empty name is exported through the no-material path, producing 1 file and 1
    entry instead of the claimed 2 (and the single file carries no face
    records, so the material partition fails as well). -/
theorem claim_C4_counterexample :
    meshC4x.material_slots.length = 2
    ∧ (write_mesh_objs meshC4x).toOption.map (fun mo => (mo.files.length, mo.entries.length))
        = some (1, 1) :=
  ⟨rfl, rfl⟩

/-- C4 amended: for a mesh with `N >= 1` material slots whose first slot has a
    nonempty name, whose polygon list is nonempty and whose faces all have 3 or
    4 vertices, exactly `N` mesh files and `N` scene entries are produced, and
    the face records of file `i` are exactly those of the polygons with
    material index `i`. -/
theorem claim_C4_amended (mesh : MeshObject) (s : MaterialSlot)
    (srest : List MaterialSlot) (p0 : Polygon) (ps : List Polygon)
    (hslots : mesh.material_slots = s :: srest)
    (hname : s.name ≠ "")
    (hp : mesh.data.polygons = p0 :: ps)
    (h34 : ∀ p ∈ mesh.data.polygons, p.vertices.length = 3 ∨ p.vertices.length = 4) :
    ∃ mo, write_mesh_objs mesh = .ok mo
      ∧ mo.files.length = mesh.material_slots.length
      ∧ mo.entries.length = mesh.material_slots.length
      ∧ ∀ i, i < mesh.material_slots.length →
          (mo.files.getD i ("", [])).2.filter isFLine
            = facesOfMat mesh.data (p0.use_smooth && mesh.data.uv_active.isSome)
                p0.use_smooth i := by
  obtain ⟨mo, hsl, hl1, hl2, hget⟩ :=
    slotLoop_ok mesh
      (headerOf mesh.data (p0.use_smooth && mesh.data.uv_active.isSome) p0.use_smooth)
      (p0.use_smooth && mesh.data.uv_active.isSome) p0.use_smooth h34
      mesh.material_slots 0
  refine ⟨mo, ?_, hl1, hl2, ?_⟩
  · rw [wmo_material mesh s srest p0 ps hslots hname hp]
    exact hsl
  · intro i hi
    have h2 := hget i hi
    rw [h2]
    simp only [Nat.zero_add, List.filter_append, headerOf_filter_isF,
      facesOfMat_filter_isF, List.nil_append]

/-- C4 amended, witness at a mesh with two named slots and one smooth triangle
    per material index. -/
theorem claim_C4_amended_witness :
    (mFiles (write_mesh_objs meshW4)).length = meshW4.material_slots.length
    ∧ ((mFiles (write_mesh_objs meshW4)).getD 0 ("", [])).2.filter isFLine
        = facesOfMat meshW4.data true true 0 := by
  obtain ⟨mo, hok, h1, h2, hget⟩ :=
    claim_C4_amended meshW4 ⟨"A", false, ⟨1, 0, 0⟩⟩ [⟨"B", true, ⟨0, 0, 0⟩⟩]
      ⟨[0, 1, 2], 0, true, ⟨0, 0, 1⟩⟩ [⟨[0, 1, 2], 1, true, ⟨0, 0, 1⟩⟩]
      rfl (by decide) rfl (by decide)
  constructor
  · rw [hok]
    exact h1
  · have h3 := hget 0 (by decide)
    rw [hok]
    exact h3

/-- C6: the claim states that a face with neither 3 nor 4 vertices makes the
    whole export fail.  Evaluating the code: a pentagon in a mesh *without*
    material slots is silently skipped (the `idMat != -1` guard filters it out
    before the vertex count is checked) and the export succeeds, while the same
    pentagon behind a named material slot does raise. -/
theorem claim_C6_pentagon_not_fatal_without_materials :
    (write_mesh_objs meshC6).toOption.isSome = true
    ∧ meshC6.data.polygons.map (fun p => p.vertices.length) = [5]
    ∧ (write_mesh_objs meshC6b).toOption.isSome = false :=
  ⟨rfl, rfl, rfl⟩

/-- C2: for a triangle that goes through the order check (normals not
    exported), the normal recomputed by the fixed cross product from the
    corrected vertex order has a non-negative dot product with the
    host-supplied face normal, and when the uncorrected normal points opposite
    to the host normal the three indices are reversed. -/
theorem claim_C2_winding_correction (m : MeshData) (poly : Polygon)
    (i0 i1 i2 j0 j1 j2 : ℕ)
    (h : orderCheck m poly false (i0, i1, i2) = (j0, j1, j2)) :
    0 ≤ dot (cross (vco m j1 - vco m j0) (vco m j2 - vco m j0)) poly.normal
    ∧ (dot (cross (vco m i1 - vco m i0) (vco m i2 - vco m i0)) poly.normal < 0 →
        (j0, j1, j2) = (i2, i1, i0)) := by
  simp only [orderCheck, Bool.not_false, if_true] at h
  by_cases hlt :
      dot (cross (vco m i1 - vco m i0) (vco m i2 - vco m i0)) poly.normal < 0
  · rw [if_pos hlt] at h
    simp only [Prod.mk.injEq] at h
    obtain ⟨rfl, rfl, rfl⟩ := h
    constructor
    · rw [dot_cross_rev (vco m i0) (vco m i1) (vco m i2) poly.normal]
      linarith
    · intro
      rfl
  · rw [if_neg hlt] at h
    simp only [Prod.mk.injEq] at h
    obtain ⟨rfl, rfl, rfl⟩ := h
    exact ⟨not_lt.1 hlt, fun hc => absurd hc hlt⟩

/-- C2, witness: a triangle whose host normal points opposite to the computed
    one; the indices flip and the recomputed dot product is non-negative. -/
theorem claim_C2_winding_correction_witness :
    orderCheck mC2 pC2 false (0, 1, 2) = (2, 1, 0)
    ∧ 0 ≤ dot (cross (vco mC2 1 - vco mC2 2) (vco mC2 0 - vco mC2 2)) pC2.normal := by
  have h : orderCheck mC2 pC2 false (0, 1, 2) = (2, 1, 0) := by
    simp [orderCheck, vco, mC2, pC2, vtx, dot, cross]
  exact ⟨h, (claim_C2_winding_correction mC2 pC2 0 1 2 2 1 0 h).1⟩

/-- C5 counterexample: the claim states that the camera world transform is
    premultiplied by an axis flip negating the X and Z axes and that this final
    matrix is what gets serialized.  At the identity world transform the code
    serializes the identity matrix itself (16 row-major numbers) next to a
    separate `scale (1,1,-1)` child - the X-and-Z flipped matrix the claim
    predicts differs from what is written. -/
theorem claim_C5_counterexample :
    childrenNamed "transform" (write_camera ctx0 cam0)
      = [XML.elem "transform" [("name", AVal.str "toWorld")]
          [XML.elem "scale" [("value", AVal.vec3 ⟨1, 1, -1⟩)] [],
           XML.elem "matrix" [("value", AVal.nums (rowMajor idMat4))] []]]
    ∧ claimedCameraMatrixValue idMat4 ≠ rowMajor idMat4 := by
  constructor
  · rfl
  · intro hEq
    have h00 := congrArg (fun l => l.headD 0) hEq
    simp only [claimedCameraMatrixValue, rowMajor, matMul, flipXZ, idMat4,
      List.headD_cons] at h00
    simp +decide only [] at h00
    norm_num at h00

/-- C5 amended: camera export converts the field of view from radians to
    degrees (angle * 180 / pi); the `toWorld` transform element holds a
    `scale (1,1,-1)` child (negating only the Z axis) followed by a `matrix`
    child carrying the camera world transform itself, serialized as its 16
    entries in row-major order. -/
theorem claim_C5_amended (ctx : RenderCtx) (cam : CameraData) :
    write_camera ctx cam
      = XML.elem "camera" [("type", .str "perspective")]
          [createEntry "float" "fov" (.num (cam.angle * 180 / mathPi)),
           createEntry "float" "nearClip" (.num cam.clip_start),
           createEntry "float" "farClip" (.num cam.clip_end),
           createEntry "integer" "width"
             (.num ((⌊(ctx.resolution_x : ℚ) * ((ctx.resolution_percentage : ℚ) / 100)⌋ : ℤ) : ℚ)),
           createEntry "integer" "height"
             (.num ((⌊(ctx.resolution_y : ℚ) * ((ctx.resolution_percentage : ℚ) / 100)⌋ : ℤ) : ℚ)),
           XML.elem "transform" [("name", .str "toWorld")]
             [createVector "scale" ⟨1, 1, -1⟩,
              XML.elem "matrix" [("value", .nums (rowMajor cam.matrix_world))] []]]
    ∧ (rowMajor cam.matrix_world).length = 16
    ∧ ∀ j i : Fin 4,
        (rowMajor cam.matrix_world).getD (4 * j.val + i.val) 0 = cam.matrix_world j i := by
  refine ⟨rfl, rfl, ?_⟩
  intro j i
  fin_cases j <;> fin_cases i <;> rfl

/-- C7: at most one camera element ever appears among the children of the
    scene document; with zero cameras a warning is emitted and the element is
    omitted while the export continues; with more than one, the first camera in
    traversal order is exported and a warning is emitted. -/
theorem claim_C7_at_most_one_camera (ctx : RenderCtx) (roots : Forest) (el : Bool)
    (nb : ℕ) (out : WriteOut) (h : write ctx roots el nb = .ok out) :
    countNamed "camera" out.doc ≤ 1
    ∧ ((allKinds roots).filterMap camOf = [] →
        countNamed "camera" out.doc = 0
        ∧ "WARN: No camera to export" ∈ out.warnings)
    ∧ ∀ cd rest, (allKinds roots).filterMap camOf = cd :: rest →
        childrenNamed "camera" out.doc = [write_camera ctx cd]
        ∧ (rest ≠ [] →
            "WARN: Does not handle multiple camera, only export the first one"
              ∈ out.warnings) := by
  have hcam := write_childrenNamed_camera ctx roots el nb out h
  obtain ⟨mo, hml, hdoc, hwarn, hfiles⟩ := write_ok_parts ctx roots el nb out h
  refine ⟨?_, ?_, ?_⟩
  · unfold countNamed
    rw [hcam]
    rcases hfm : (allKinds roots).filterMap camOf with _ | ⟨cd, rest⟩
    · simp [cameraSection_nil ctx _ hfm]
    · simp [cameraSection_cons ctx _ cd rest hfm]
  · intro hfm
    constructor
    · unfold countNamed
      rw [hcam]
      simp [cameraSection_nil ctx _ hfm]
    · rw [hwarn, cameraSection_nil ctx _ hfm]
      simp
  · intro cd rest hfm
    constructor
    · rw [hcam, cameraSection_cons ctx _ cd rest hfm]
    · intro hne
      rw [hwarn, cameraSection_cons ctx _ cd rest hfm]
      rcases rest with _ | ⟨r, rs⟩
      · exact absurd rfl hne
      · simp

/-- C7, witness: a scene with no camera and no mesh exports successfully, with
    no camera element and the no-camera warning. -/
theorem claim_C7_at_most_one_camera_witness :
    countNamed "camera" (getOkW (write ctx0 sceneC7w false 32)).doc = 0
    ∧ "WARN: No camera to export" ∈ (getOkW (write ctx0 sceneC7w false 32)).warnings :=
  (claim_C7_at_most_one_camera ctx0 sceneC7w false 32
    (getOkW (write ctx0 sceneC7w false 32)) rfl).2.1 rfl

/-- C8 counterexample: the claim states pre-order (a mesh node before its
    children).  In the scene `sceneC8x` the mesh `C` is the child of the mesh
    `P`, yet the document lists the entry of `C` before the entry of `P`. -/
theorem claim_C8_counterexample :
    meshFilenames (getOkW (write ctx0 sceneC8x false 7)).doc
      = ["meshes/C.obj", "meshes/P.obj"]
    ∧ (["meshes/C.obj", "meshes/P.obj"] : List String)
        ≠ ["meshes/P.obj", "meshes/C.obj"] :=
  ⟨rfl, by decide⟩

/-- C8 amended: the mesh elements of the document are appended in
    deterministic depth-first, post-order traversal order starting from the
    parentless top-level objects: the document mesh children are exactly the
    entries of the collected post-order mesh list, and for every node the
    entries of its children precede its own entries. -/
theorem claim_C8_amended (ctx : RenderCtx) (roots : Forest) (el : Bool) (nb : ℕ)
    (out : WriteOut) (h : write ctx roots el nb = .ok out) :
    childrenNamed "mesh" out.doc = mEntries (meshLoop (collectList roots))
    ∧ ∀ (k : ObjKind) (cs : Forest) (mo1 : MeshOut),
        meshLoop (collectMeshes k cs) = .ok mo1 →
        ∃ a b, meshLoop (collectList cs) = .ok a ∧ meshLoop (ownMeshes k) = .ok b
          ∧ mo1.entries = a.entries ++ b.entries := by
  constructor
  · obtain ⟨mo, hml, hch, -⟩ := write_childrenNamed_mesh ctx roots el nb out h
    rw [hch, hml]
    rfl
  · intro k cs mo1 h1
    rw [show collectMeshes k cs = collectList cs ++ ownMeshes k from rfl] at h1
    obtain ⟨a, b, ha, hb, -, he, -⟩ := meshLoop_append (collectList cs) (ownMeshes k) mo1 h1
    exact ⟨a, b, ha, hb, he⟩

/-- C8 amended, witness at the two-mesh parent and child scene. -/
theorem claim_C8_amended_witness :
    childrenNamed "mesh" (getOkW (write ctx0 sceneC8x false 7)).doc
      = mEntries (meshLoop (collectList sceneC8x)) :=
  (claim_C8_amended ctx0 sceneC8x false 7 (getOkW (write ctx0 sceneC8x false 7)) rfl).1

/-- C9: every mesh element written into the scene document carries, besides
    its one filename string child and its one bsdf child, a transform child
    named `toWorld` holding the mesh world matrix serialized as its 16
    row-major entries. -/
theorem claim_C9_mesh_entry_children (mesh : MeshObject) (mo : MeshOut)
    (h : write_mesh_objs mesh = .ok mo) :
    ∀ e ∈ mo.entries,
      childrenNamed "transform" e
        = [XML.elem "transform" [("name", .str "toWorld")]
            [XML.elem "matrix" [("value", .nums (rowMajor mesh.matrix_world))] []]]
      ∧ (childrenNamed "string" e).length = 1
      ∧ (childrenNamed "bsdf" e).length = 1
      ∧ (rowMajor mesh.matrix_world).length = 16 := by
  intro e he
  obtain ⟨hE, -⟩ := wmo_shape mesh mo h
  obtain ⟨fn, b, hb, rfl⟩ := hE e he
  rcases b with ⟨bn, battrs, bch⟩
  have hbn : bn = "bsdf" := hb
  subst hbn
  exact ⟨rfl, rfl, rfl, rfl⟩

/-- C9, witness at a single-mesh export. -/
theorem claim_C9_mesh_entry_children_witness :
    childrenNamed "transform"
        ((mEntries (write_mesh_objs meshW9)).getD 0 (XML.elem "" [] []))
      = [XML.elem "transform" [("name", .str "toWorld")]
          [XML.elem "matrix" [("value", .nums (rowMajor meshW9.matrix_world))] []]] :=
  (claim_C9_mesh_entry_children meshW9 (getOkM (write_mesh_objs meshW9)) rfl
    ((mEntries (write_mesh_objs meshW9)).getD 0 (XML.elem "" [] []))
    (getD0_mem _ _ (by decide))).1

/-- C10: for every exported mesh, the `vn` channel of each of its files is
    present exactly when the first polygon is smooth, the `vt` channel exactly
    when additionally a UV layer is active (so never without the normal
    channel), and every face entry carries a normal index exactly when the
    first polygon is smooth and a UV index exactly when the UV channel is on. -/
theorem claim_C10_channel_flags (mesh : MeshObject) (p0 : Polygon) (ps : List Polygon)
    (mo : MeshOut)
    (hp : mesh.data.polygons = p0 :: ps)
    (h : write_mesh_objs mesh = .ok mo) :
    ((p0.use_smooth && mesh.data.uv_active.isSome) = true → p0.use_smooth = true)
    ∧ ∀ f ∈ mo.files,
        f.2.filter isVNLine
          = (if p0.use_smooth then
               mesh.data.vertices.map
                 (fun vert => ObjLine.vn vert.normal.x vert.normal.y vert.normal.z)
             else [])
        ∧ f.2.filter isVTLine
          = (if p0.use_smooth && mesh.data.uv_active.isSome then
               (mesh.data.uv_active.getD []).map (fun u => ObjLine.vt u.1 u.2)
             else [])
        ∧ ∀ l ∈ f.2, ∀ en ∈ fEntriesOf l,
            en.2.1.isSome = (p0.use_smooth && mesh.data.uv_active.isSome)
            ∧ en.2.2.isSome = p0.use_smooth := by
  obtain ⟨-, p0', ps', hp', hF⟩ := wmo_shape mesh mo h
  rw [hp] at hp'
  injection hp' with h1 h2
  subst h1
  refine ⟨fun hU => ?_, ?_⟩
  · rw [Bool.and_eq_true] at hU
    exact hU.1
  intro f hf
  obtain ⟨k, ls, hwf, hcontent⟩ := hF f hf
  have hls : ∀ l ∈ ls, ∃ p t,
      l = faceLineOf mesh.data p (p0.use_smooth && mesh.data.uv_active.isSome)
            p0.use_smooth t :=
    write_face_go_mem mesh.data _ _ k mesh.data.polygons ls hwf
  have hlsVN : ls.filter isVNLine = [] :=
    filter_eq_nil_of isVNLine ls
      (fun a ha => by obtain ⟨p, t, rfl⟩ := hls a ha; rfl)
  have hlsVT : ls.filter isVTLine = [] :=
    filter_eq_nil_of isVTLine ls
      (fun a ha => by obtain ⟨p, t, rfl⟩ := hls a ha; rfl)
  refine ⟨?_, ?_, ?_⟩
  · rw [hcontent, List.filter_append, headerOf_filter_isVN, hlsVN, List.append_nil]
  · rw [hcontent, List.filter_append, headerOf_filter_isVT, hlsVT, List.append_nil]
  · intro l hl en hen
    rw [hcontent] at hl
    rcases List.mem_append.1 hl with hl1 | hl2
    · rw [headerOf_fEntries mesh.data _ _ l hl1] at hen
      simp at hen
    · obtain ⟨p, t, rfl⟩ := hls l hl2
      exact faceLineOf_entries mesh.data p _ _ t en hen

/-- C10, witness: the first slot file of the smooth, UV-mapped two-material
    mesh carries exactly the vn lines of its vertices. -/
theorem claim_C10_channel_flags_witness :
    ((mFiles (write_mesh_objs meshW4)).getD 0 ("", [])).2.filter isVNLine
      = meshW4.data.vertices.map
          (fun vert => ObjLine.vn vert.normal.x vert.normal.y vert.normal.z) :=
  ((claim_C10_channel_flags meshW4 ⟨[0, 1, 2], 0, true, ⟨0, 0, 1⟩⟩
      [⟨[0, 1, 2], 1, true, ⟨0, 0, 1⟩⟩] (getOkM (write_mesh_objs meshW4)) rfl rfl).2
    ((mFiles (write_mesh_objs meshW4)).getD 0 ("", []))
    (getD0_mem _ _ (by decide))).1
